import Mathlib

/-!
# Verification of the kuma-mcp monitor-configuration layer

Shallow embedding of the monitor-configuration translation and remote-call
mediation layer of the kuma-mcp repository:

* `src/schemas.ts` — the zod `MonitorConfigSchema` with its per-type
  required-field `superRefine` check, and the `UpdateMonitorInputSchema`
  built from the partialized shape;
* `src/client.ts` — `transformMonitorPayload` (type-based field projection
  with create-path defaults), `UptimeKumaClient.addMonitor`,
  `updateMonitorById`, `listMonitors` (push-event reconciliation) and
  `findMonitorsByName`.

JavaScript objects are embedded as association lists of string keys and
`JSValue`s in insertion order; `undefined` is the explicit `JSValue.undefined`
marker, and property access on a missing key yields `undefined`, as in
JavaScript.
-/

/-- A JavaScript runtime value, as far as this layer inspects one.
Numbers are embedded as integers (every numeric field of the schema is an
integer-valued count, port or id). -/
inductive JSValue where
  | undefined
  | null
  | bool (b : Bool)
  | num (n : Int)
  | str (s : String)
  | arr (elems : List JSValue)
  | obj (fields : List (String × JSValue))

/-- A JavaScript object: keys with values, in insertion order. -/
abbrev JSObject := List (String × JSValue)

/-- `v === undefined`. -/
def JSValue.isUndefined : JSValue → Bool
  | .undefined => true
  | _ => false

/-- JavaScript truthiness of a value. -/
def JSValue.truthy : JSValue → Bool
  | .undefined => false
  | .null => false
  | .bool b => b
  | .num n => n != 0
  | .str s => s != ""
  | .arr _ => true
  | .obj _ => true

/-- Property access `o[k]`: the first entry with key `k`, or `undefined`. -/
def jsGet : JSObject → String → JSValue
  | [], _ => .undefined
  | (k, v) :: rest, key => if k = key then v else jsGet rest key

/-- The `k in o` operator: key presence, regardless of the value. -/
def hasKey : JSObject → String → Bool
  | [], _ => false
  | (k, _) :: rest, key => k = key || hasKey rest key

/-- Object spread `{ ...a, ...b }`: keys of `a` in order with `b`'s value
when `b` also has the key, followed by `b`'s keys new to `a`. -/
def jsSpread (a b : JSObject) : JSObject :=
  a.map (fun kv => if hasKey b kv.1 then (kv.1, jsGet b kv.1) else kv)
    ++ b.filter (fun kv => !hasKey a kv.1)

@[simp] theorem jsGet_nil (k : String) : jsGet [] k = .undefined := rfl

theorem jsGet_cons (k' : String) (v : JSValue) (l : JSObject) (k : String) :
    jsGet ((k', v) :: l) k = if k' = k then v else jsGet l k := rfl

@[simp] theorem hasKey_nil (k : String) : hasKey [] k = false := rfl

theorem hasKey_cons (k' : String) (v : JSValue) (l : JSObject) (k : String) :
    hasKey ((k', v) :: l) k = (decide (k' = k) || hasKey l k) := rfl

theorem jsGet_eq_undef_of_not_hasKey {l : JSObject} {k : String}
    (h : hasKey l k = false) : jsGet l k = .undefined := by
  induction l with
  | nil => rfl
  | cons hd tl ih =>
    obtain ⟨k', v'⟩ := hd
    rw [hasKey_cons, Bool.or_eq_false_iff] at h
    rw [jsGet_cons, if_neg (by simpa using h.1)]
    exact ih h.2

theorem hasKey_of_jsGet_ne {l : JSObject} {k : String}
    (h : jsGet l k ≠ .undefined) : hasKey l k = true := by
  cases hk : hasKey l k with
  | true => rfl
  | false => exact absurd (jsGet_eq_undef_of_not_hasKey hk) h

theorem hasKey_append (a b : JSObject) (k : String) :
    hasKey (a ++ b) k = (hasKey a k || hasKey b k) := by
  induction a with
  | nil => simp
  | cons hd tl ih =>
    obtain ⟨k', v'⟩ := hd
    rw [List.cons_append, hasKey_cons, hasKey_cons, ih, Bool.or_assoc]

theorem jsGet_append (a b : JSObject) (k : String) :
    jsGet (a ++ b) k = if hasKey a k then jsGet a k else jsGet b k := by
  induction a with
  | nil => simp
  | cons hd tl ih =>
    obtain ⟨k', v'⟩ := hd
    by_cases hk : k' = k
    · subst hk
      simp [jsGet_cons, hasKey_cons]
    · rw [List.cons_append, jsGet_cons, if_neg hk, ih, jsGet_cons, if_neg hk,
        hasKey_cons, decide_eq_false hk, Bool.false_or]

theorem hasKey_iff_exists {l : JSObject} {k : String} :
    hasKey l k = true ↔ ∃ v, (k, v) ∈ l := by
  induction l with
  | nil => simp
  | cons hd tl ih =>
    obtain ⟨k', v'⟩ := hd
    by_cases hk : k' = k
    · subst hk
      constructor
      · intro _
        exact ⟨v', List.mem_cons_self _ _⟩
      · intro _
        rw [hasKey_cons, decide_eq_true rfl, Bool.true_or]
    · rw [hasKey_cons, decide_eq_false hk, Bool.false_or, ih]
      constructor
      · rintro ⟨v, hv⟩
        exact ⟨v, List.mem_cons_of_mem _ hv⟩
      · rintro ⟨v, hv⟩
        rcases List.mem_cons.mp hv with h | h
        · cases h
          exact absurd rfl hk
        · exact ⟨v, h⟩

theorem hasKey_of_hasKey_filter {l : JSObject} {k : String} {f : String × JSValue → Bool}
    (h : hasKey (l.filter f) k = true) : hasKey l k = true := by
  obtain ⟨v, hv⟩ := hasKey_iff_exists.mp h
  exact hasKey_iff_exists.mpr ⟨v, (List.mem_filter.mp hv).1⟩

theorem hasKey_filter_eq_false {l : JSObject} {k : String} {f : String × JSValue → Bool}
    (h : ∀ v, f (k, v) = false) : hasKey (l.filter f) k = false := by
  cases hk : hasKey (l.filter f) k with
  | false => rfl
  | true =>
    obtain ⟨v, hv⟩ := hasKey_iff_exists.mp hk
    have hf := (List.mem_filter.mp hv).2
    rw [h v] at hf
    exact absurd hf (by simp)

/-- With no duplicate keys, a key survives `filter` exactly when the key is
present and its (unique) entry passes the filter. -/
theorem hasKey_filter {l : JSObject} {k : String} {f : String × JSValue → Bool}
    (hnd : (l.map Prod.fst).Nodup) :
    hasKey (l.filter f) k = (hasKey l k && f (k, jsGet l k)) := by
  induction l with
  | nil => simp
  | cons hd tl ih =>
    obtain ⟨k', v'⟩ := hd
    simp only [List.map_cons, List.nodup_cons] at hnd
    by_cases hk : k' = k
    · subst hk
      have htl : hasKey tl k' = false := by
        cases h : hasKey tl k' with
        | false => rfl
        | true =>
          obtain ⟨v, hv⟩ := hasKey_iff_exists.mp h
          exact absurd (List.mem_map_of_mem Prod.fst hv) hnd.1
      rw [List.filter_cons, hasKey_cons, decide_eq_true rfl, Bool.true_or,
        Bool.true_and, jsGet_cons, if_pos rfl]
      cases hf : f (k', v') with
      | true =>
        rw [if_pos (by simp [hf]), hasKey_cons, decide_eq_true rfl, Bool.true_or]
      | false =>
        rw [if_neg (by simp [hf])]
        cases h2 : hasKey (List.filter f tl) k' with
        | false => rfl
        | true => rw [hasKey_of_hasKey_filter h2] at htl; cases htl
    · have hrec := ih hnd.2
      rw [List.filter_cons, hasKey_cons, decide_eq_false hk, Bool.false_or,
        jsGet_cons, if_neg hk]
      cases hf : f (k', v') with
      | true => rw [if_pos (by simp [hf]), hasKey_cons, decide_eq_false hk, Bool.false_or, hrec]
      | false => rw [if_neg (by simp [hf]), hrec]

/-- With no duplicate keys, an entry that passes the filter is read back
unchanged through the filtered object. -/
theorem jsGet_filter_of_pass {l : JSObject} {k : String} {f : String × JSValue → Bool}
    (hnd : (l.map Prod.fst).Nodup)
    (hc : (hasKey l k && f (k, jsGet l k)) = true) : jsGet (l.filter f) k = jsGet l k := by
  induction l with
  | nil => simp at hc
  | cons hd tl ih =>
    obtain ⟨k', v'⟩ := hd
    simp only [List.map_cons, List.nodup_cons] at hnd
    by_cases hk : k' = k
    · subst hk
      rw [jsGet_cons, if_pos rfl] at hc ⊢
      have hf : f (k', v') = true := by
        rcases Bool.and_eq_true_iff.mp hc with ⟨_, h2⟩
        exact h2
      rw [List.filter_cons, if_pos (by simp [hf]), jsGet_cons, if_pos rfl]
    · have hc' : (hasKey tl k && f (k, jsGet tl k)) = true := by
        rwa [hasKey_cons, decide_eq_false hk, Bool.false_or, jsGet_cons, if_neg hk] at hc
      rw [jsGet_cons, if_neg hk, List.filter_cons]
      cases hf : f (k', v') with
      | true => rw [if_pos (by simp [hf]), jsGet_cons, if_neg hk]; exact ih hnd.2 hc'
      | false => rw [if_neg (by simp [hf])]; exact ih hnd.2 hc'

theorem keys_nodup_filter {l : JSObject} {f : String × JSValue → Bool}
    (hnd : (l.map Prod.fst).Nodup) : ((l.filter f).map Prod.fst).Nodup :=
  List.Nodup.sublist (List.Sublist.map Prod.fst (List.filter_sublist l)) hnd

/-! ## Monitor types and per-type field tables (src/schemas.ts, src/client.ts) -/

/-- The monitor type enum (`MonitorTypeSchema` in src/schemas.ts). -/
inductive MonitorType where
  | http | port | ping | keyword | grpcKeyword | jsonQuery | dns | docker
  | push | steam | mqtt | kafkaProducer | sqlserver | postgres | mysql
  | mongodb | radius | redis | group | gamedig | tailscalePing
deriving DecidableEq

/-- The string of each enum member. -/
def MonitorType.name : MonitorType → String
  | .http => "http"
  | .port => "port"
  | .ping => "ping"
  | .keyword => "keyword"
  | .grpcKeyword => "grpc-keyword"
  | .jsonQuery => "json-query"
  | .dns => "dns"
  | .docker => "docker"
  | .push => "push"
  | .steam => "steam"
  | .mqtt => "mqtt"
  | .kafkaProducer => "kafka-producer"
  | .sqlserver => "sqlserver"
  | .postgres => "postgres"
  | .mysql => "mysql"
  | .mongodb => "mongodb"
  | .radius => "radius"
  | .redis => "redis"
  | .group => "group"
  | .gamedig => "gamedig"
  | .tailscalePing => "tailscale-ping"

/-- Recognize an enum string. -/
def strToMonitorType : String → Option MonitorType
  | "http" => some .http
  | "port" => some .port
  | "ping" => some .ping
  | "keyword" => some .keyword
  | "grpc-keyword" => some .grpcKeyword
  | "json-query" => some .jsonQuery
  | "dns" => some .dns
  | "docker" => some .docker
  | "push" => some .push
  | "steam" => some .steam
  | "mqtt" => some .mqtt
  | "kafka-producer" => some .kafkaProducer
  | "sqlserver" => some .sqlserver
  | "postgres" => some .postgres
  | "mysql" => some .mysql
  | "mongodb" => some .mongodb
  | "radius" => some .radius
  | "redis" => some .redis
  | "group" => some .group
  | "gamedig" => some .gamedig
  | "tailscale-ping" => some .tailscalePing
  | _ => none

theorem strToMonitorType_name (ty : MonitorType) :
    strToMonitorType ty.name = some ty := by
  cases ty <;> rfl

/-- `MONITOR_TYPE_REQUIRED_FIELDS` (src/schemas.ts): required fields per type. -/
def MONITOR_TYPE_REQUIRED_FIELDS : MonitorType → List String
  | .http => ["url"]
  | .jsonQuery => ["url", "jsonPath", "jsonPathOperator", "expectedValue"]
  | .keyword => ["url", "keyword"]
  | .grpcKeyword => ["url", "keyword"]
  | .port => ["hostname", "port"]
  | .ping => ["hostname"]
  | .dns => ["hostname"]
  | .docker => ["hostname"]
  | .push => []
  | .steam => ["hostname", "port"]
  | .mqtt => ["hostname", "port"]
  | .kafkaProducer => ["hostname", "port"]
  | .sqlserver => ["hostname", "port"]
  | .postgres => ["hostname", "port"]
  | .mysql => ["hostname", "port"]
  | .mongodb => ["hostname", "port"]
  | .radius => ["hostname", "port"]
  | .redis => ["hostname", "port"]
  | .group => []
  | .gamedig => ["hostname", "port"]
  | .tailscalePing => ["hostname"]

/-- `COMMON_FIELDS` (src/client.ts). -/
def COMMON_FIELDS : List String :=
  ["name", "type", "interval", "retryInterval", "maxretries",
   "notificationIDList", "active", "description", "parent", "pathName"]

/-- `URL_BASED_FIELDS` (src/client.ts). -/
def URL_BASED_FIELDS : List String :=
  ["url", "requestTimeout", "method", "headers", "body", "upsideDown",
   "expiryNotification", "ignoreTls", "maxredirects", "accepted_statuscodes",
   "ipFamily", "proxyId"]

/-- `HOSTNAME_PORT_FIELDS` (src/client.ts). -/
def HOSTNAME_PORT_FIELDS : List String := ["hostname", "port", "upsideDown"]

/-- `MONITOR_TYPE_FIELDS` (src/client.ts): allowed fields per type.
The source builds each entry as a `Set` merged from the field arrays;
only membership is consumed, so each entry is kept as the merged list. -/
def MONITOR_TYPE_FIELDS : MonitorType → List String
  | .http => COMMON_FIELDS ++ URL_BASED_FIELDS ++ ["keyword", "invertKeyword", "uptimeKumaCachebuster"]
  | .jsonQuery => COMMON_FIELDS ++ URL_BASED_FIELDS ++ ["jsonPath", "jsonPathOperator", "expectedValue"]
  | .keyword => COMMON_FIELDS ++ URL_BASED_FIELDS ++ ["keyword", "invertKeyword"]
  | .grpcKeyword => COMMON_FIELDS ++ ["url", "requestTimeout", "keyword", "invertKeyword", "upsideDown"]
  | .port => COMMON_FIELDS ++ HOSTNAME_PORT_FIELDS
  | .ping => COMMON_FIELDS ++ ["hostname", "upsideDown", "packetSize", "maxPackets", "numericOutput", "perPingTimeout"]
  | .dns => COMMON_FIELDS ++ ["hostname", "upsideDown", "dns_resolve_server", "dns_resolve_type"]
  | .docker => COMMON_FIELDS ++ ["hostname", "upsideDown"]
  | .push => COMMON_FIELDS ++ ["upsideDown"]
  | .steam => COMMON_FIELDS ++ HOSTNAME_PORT_FIELDS
  | .mqtt => COMMON_FIELDS ++ HOSTNAME_PORT_FIELDS
  | .kafkaProducer => COMMON_FIELDS ++ HOSTNAME_PORT_FIELDS
  | .sqlserver => COMMON_FIELDS ++ HOSTNAME_PORT_FIELDS
  | .postgres => COMMON_FIELDS ++ HOSTNAME_PORT_FIELDS
  | .mysql => COMMON_FIELDS ++ HOSTNAME_PORT_FIELDS
  | .mongodb => COMMON_FIELDS ++ HOSTNAME_PORT_FIELDS
  | .radius => COMMON_FIELDS ++ HOSTNAME_PORT_FIELDS
  | .redis => COMMON_FIELDS ++ HOSTNAME_PORT_FIELDS
  | .group => COMMON_FIELDS ++ ["upsideDown"]
  | .gamedig => COMMON_FIELDS ++ HOSTNAME_PORT_FIELDS
  | .tailscalePing => COMMON_FIELDS ++ ["hostname", "upsideDown"]

/-! ## transformMonitorPayload (src/client.ts) -/

/-- The loop body's keep condition in `transformMonitorPayload`: an entry is
kept unless its value is `undefined` or its key is neither `id` nor in the
allowed set. -/
def monitorKeep (allowed : List String) (kv : String × JSValue) : Bool :=
  !kv.2.isUndefined && (kv.1 = "id" || decide (kv.1 ∈ allowed))

/-- The keep condition of the untyped branch: drop only `undefined` values. -/
def definedKeep (kv : String × JSValue) : Bool := !kv.2.isUndefined

/-- The create-path defaulting block of `transformMonitorPayload`: when the
input has a (truthy) `type` and no `id` key, fill `notificationIDList`,
`accepted_statuscodes` and `conditions` when absent from the payload. -/
def addCreateDefaults (input payload : JSObject) : JSObject :=
  if (jsGet input "type").truthy && !hasKey input "id" then
    let p1 := if hasKey payload "notificationIDList" then payload
      else payload ++ [("notificationIDList", .obj [])]
    let p2 := if hasKey p1 "accepted_statuscodes" then p1
      else p1 ++ [("accepted_statuscodes", .arr [.str "200-299"])]
    if hasKey p2 "conditions" then p2 else p2 ++ [("conditions", .arr [])]
  else payload

/-- The `input.type as MonitorType` cast followed by the
`MONITOR_TYPE_FIELDS[monitorType]` lookup: only an enum string hits a
table entry; any other (truthy) value makes the lookup `undefined`. -/
def monitorTypeOfValue : JSValue → Option MonitorType
  | .str s => strToMonitorType s
  | _ => none

/-- `transformMonitorPayload` (src/client.ts): project the input onto the
type's allowed field set (keeping `id`, dropping `undefined`), or pass all
defined fields through when `type` is not truthy; then apply the create-path
defaults. Returns `none` when the code would throw: a truthy `type` that is
not one of the enum strings makes `MONITOR_TYPE_FIELDS[monitorType]`
`undefined` and the subsequent `.has` call throw. -/
def transformMonitorPayload (input : JSObject) : Option JSObject :=
  if (jsGet input "type").truthy then
    match monitorTypeOfValue (jsGet input "type") with
    | some ty =>
      some (addCreateDefaults input (input.filter (monitorKeep (MONITOR_TYPE_FIELDS ty))))
    | none => none
  else
    some (addCreateDefaults input (input.filter definedKeep))

/-! ## The zod MonitorConfigSchema (src/schemas.ts) -/

/-- One field declaration of a zod object schema: a key, the value check of
its zod type, whether the field is required, and its default (applied when
the incoming value is `undefined`). A field is exactly one of: required
(`req` and no default), optional (no default, skipped when `undefined`),
or defaulted. -/
structure FieldSpec where
  key : String
  check : JSValue → Bool
  req : Bool
  dflt : Option JSValue

def isStr : JSValue → Bool
  | .str _ => true
  | _ => false

def isNum : JSValue → Bool
  | .num _ => true
  | _ => false

def isBool : JSValue → Bool
  | .bool _ => true
  | _ => false

/-- `z.array(z.string())`. -/
def isStrArr : JSValue → Bool
  | .arr es => es.all isStr
  | _ => false

/-- `z.record(z.string(), z.any())`. -/
def isRecord : JSValue → Bool
  | .obj _ => true
  | _ => false

/-- `z.enum([...])`. -/
def isEnumOf (vs : List String) : JSValue → Bool
  | .str s => decide (s ∈ vs)
  | _ => false

/-- `z.enum([...]).nullable()`. -/
def isNullableEnumOf (vs : List String) : JSValue → Bool
  | .null => true
  | .str s => decide (s ∈ vs)
  | _ => false

/-- A required field (`z.string()` etc. with no `.optional()`/`.default()`). -/
def reqField (k : String) (c : JSValue → Bool) : FieldSpec := ⟨k, c, true, none⟩

/-- An `.optional()` field. -/
def optField (k : String) (c : JSValue → Bool) : FieldSpec := ⟨k, c, false, none⟩

/-- A `.default(d)` field. -/
def dfltField (k : String) (c : JSValue → Bool) (d : JSValue) : FieldSpec := ⟨k, c, false, some d⟩

/-- The 21 enum strings of `MonitorTypeSchema`. -/
def monitorTypeNames : List String :=
  ["http", "port", "ping", "keyword", "grpc-keyword", "json-query", "dns",
   "docker", "push", "steam", "mqtt", "kafka-producer", "sqlserver",
   "postgres", "mysql", "mongodb", "radius", "redis", "group", "gamedig",
   "tailscale-ping"]

/-- The field declarations of `MonitorConfigSchema` (src/schemas.ts), in
declaration order. -/
def monitorConfigSpecs : List FieldSpec :=
  [reqField "name" isStr,
   reqField "type" (isEnumOf monitorTypeNames),
   optField "url" isStr,
   optField "hostname" isStr,
   optField "port" isNum,
   dfltField "interval" isNum (.num 60),
   dfltField "retryInterval" isNum (.num 60),
   dfltField "maxretries" isNum (.num 0),
   dfltField "resendInterval" isNum (.num 0),
   dfltField "notificationIDList" isRecord (.obj []),
   dfltField "active" isBool (.bool true),
   dfltField "requestTimeout" isNum (.num 48),
   optField "method" isStr,
   optField "headers" isStr,
   optField "body" isStr,
   optField "keyword" isStr,
   optField "invertKeyword" isBool,
   optField "jsonPath" isStr,
   optField "jsonPathOperator" (isEnumOf ["==", "!=", ">", ">=", "<", "<=", "contains"]),
   optField "expectedValue" isStr,
   dfltField "upsideDown" isBool (.bool false),
   dfltField "expiryNotification" isBool (.bool false),
   dfltField "ignoreTls" isBool (.bool false),
   dfltField "uptimeKumaCachebuster" isBool (.bool false),
   dfltField "maxredirects" isNum (.num 10),
   dfltField "accepted_statuscodes" isStrArr (.arr [.str "200-299"]),
   optField "ipFamily" (isNullableEnumOf ["ipv4", "ipv6"]),
   optField "proxyId" isNum,
   optField "dns_resolve_server" isStr,
   optField "dns_resolve_type" isStr,
   optField "description" isStr,
   optField "parent" isNum,
   optField "pathName" isStr,
   dfltField "packetSize" isNum (.num 56),
   dfltField "maxPackets" isNum (.num 1),
   dfltField "numericOutput" isBool (.bool false),
   dfltField "perPingTimeout" isNum (.num 2)]

/-- Parse one declared field out of the input object: a missing
(`undefined`) value takes the default, is skipped when optional, and fails
when required; a present value must pass the type check. `.ok none` means
the key is absent from the parsed output. -/
def parseField (input : JSObject) (s : FieldSpec) : Except Unit (Option (String × JSValue)) :=
  let v := jsGet input s.key
  if v.isUndefined then
    match s.dflt with
    | some d => .ok (some (s.key, d))
    | none => if s.req then .error () else .ok none
  else
    if s.check v then .ok (some (s.key, v)) else .error ()

/-- The base object parse of a zod object schema: parse every declared
field, strip unknown keys, fail when any declared field fails. -/
def baseParse : List FieldSpec → JSObject → Except Unit JSObject
  | [], _ => .ok []
  | s :: rest, input =>
    match parseField input s, baseParse rest input with
    | .ok r, .ok out => .ok (match r with | some kv => kv :: out | none => out)
    | _, _ => .error ()

/-- A zod validation issue as added by the `superRefine` in src/schemas.ts
(`code: 'custom'`, a message and a path). -/
structure Issue where
  message : String
  path : List String

/-- The issue the `superRefine` registers for a missing required field. -/
def requiredIssue (ty : MonitorType) (f : String) : Issue :=
  ⟨f ++ " is required for " ++ ty.name ++ " monitor type", [f]⟩

/-- The `superRefine` of `MonitorConfigSchema`: one issue per required
field of the parsed record's type whose value is `undefined`. -/
def superRefineIssues (data : JSObject) : List Issue :=
  match jsGet data "type" with
  | .str s =>
    match strToMonitorType s with
    | some ty =>
      (MONITOR_TYPE_REQUIRED_FIELDS ty).filterMap (fun f =>
        if (jsGet data f).isUndefined then some (requiredIssue ty f) else none)
    | none => []
  | _ => []

/-- The outcome of `MonitorConfigSchema.safeParse`. -/
inductive ParseResult where
  | ok (data : JSObject)
  | baseError
  | refineError (issues : List Issue)

/-- `MonitorConfigSchema.safeParse`: the base object parse, then the
`superRefine` check on the parsed record (zod only runs refinements once
the base parse succeeded, and fails when any issue was registered). -/
def monitorConfigSafeParse (input : JSObject) : ParseResult :=
  match baseParse monitorConfigSpecs input with
  | .error _ => .baseError
  | .ok data =>
    match superRefineIssues data with
    | [] => .ok data
    | issues => .refineError issues

/-- `MonitorConfigSchema.partial().shape` makes every config field optional
and drops defaults (a missing value short-circuits the `optional` wrapper
before any inner default applies). -/
def partialize (s : FieldSpec) : FieldSpec := ⟨s.key, s.check, false, none⟩

/-- The field declarations of `UpdateMonitorInputSchema`
(src/schemas.ts): a required numeric `id` plus the partialized
`MonitorConfigSchema` shape. Spreading `.shape` into a fresh `z.object`
carries over only the field declarations — not the `superRefine` check. -/
def updateInputSpecs : List FieldSpec :=
  reqField "id" isNum :: monitorConfigSpecs.map partialize

/-- `UpdateMonitorInputSchema.safeParse`: a plain object parse; the new
object built from the spread shape has no refinement to run. -/
def updateSafeParse (input : JSObject) : ParseResult :=
  match baseParse updateInputSpecs input with
  | .error _ => .baseError
  | .ok data => .ok data

/-! ## Properties of the base object parse -/

theorem parseField_ok_key {input : JSObject} {s : FieldSpec} {kv : String × JSValue}
    (h : parseField input s = .ok (some kv)) : kv.1 = s.key := by
  simp only [parseField] at h
  split at h
  · split at h
    · simp only [Except.ok.injEq, Option.some.injEq] at h
      subst h
      rfl
    · split at h
      · simp at h
      · simp at h
  · split at h
    · simp only [Except.ok.injEq, Option.some.injEq] at h
      subst h
      rfl
    · simp at h

theorem baseParse_hasKey_imp {specs : List FieldSpec} {input out : JSObject} {k : String}
    (h : baseParse specs input = .ok out) (hk : hasKey out k = true) :
    ∃ s ∈ specs, s.key = k := by
  induction specs generalizing out with
  | nil =>
    simp only [baseParse, Except.ok.injEq] at h
    subst h
    simp at hk
  | cons s0 rest ih =>
    unfold baseParse at h
    cases hp : parseField input s0 with
    | error e => rw [hp] at h; simp at h
    | ok r =>
      cases hb : baseParse rest input with
      | error e => rw [hp, hb] at h; simp at h
      | ok out' =>
        rw [hp, hb] at h
        cases r with
        | none =>
          simp only [Except.ok.injEq] at h
          subst h
          obtain ⟨s', hs', hkey⟩ := ih hb hk
          exact ⟨s', List.mem_cons_of_mem _ hs', hkey⟩
        | some kv =>
          simp only [Except.ok.injEq] at h
          subst h
          rw [hasKey_cons] at hk
          rcases Bool.or_eq_true_iff.mp hk with h1 | h1
          · exact ⟨s0, List.mem_cons_self _ _, (parseField_ok_key hp) ▸ of_decide_eq_true h1⟩
          · obtain ⟨s', hs', hkey⟩ := ih hb h1
            exact ⟨s', List.mem_cons_of_mem _ hs', hkey⟩

theorem baseParse_no_field_error {specs : List FieldSpec} {input out : JSObject} {s : FieldSpec}
    (h : baseParse specs input = .ok out) (hmem : s ∈ specs) :
    parseField input s ≠ .error () := by
  induction specs generalizing out with
  | nil => simp at hmem
  | cons s0 rest ih =>
    unfold baseParse at h
    cases hp : parseField input s0 with
    | error e => rw [hp] at h; simp at h
    | ok r =>
      cases hb : baseParse rest input with
      | error e => rw [hp, hb] at h; simp at h
      | ok out' =>
        rcases List.mem_cons.mp hmem with rfl | hmem'
        · rw [hp]; simp
        · exact ih hb hmem'

/-- With no duplicate declared keys, a successful base parse reads each
declared key back as the result of its own field parse. -/
theorem baseParse_jsGet {specs : List FieldSpec} {input out : JSObject} {s : FieldSpec}
    (h : baseParse specs input = .ok out)
    (hnd : (specs.map FieldSpec.key).Nodup)
    (hmem : s ∈ specs) :
    jsGet out s.key =
      (match parseField input s with
        | .ok (some kv) => kv.2
        | _ => .undefined) := by
  induction specs generalizing out with
  | nil => simp at hmem
  | cons s0 rest ih =>
    simp only [List.map_cons, List.nodup_cons] at hnd
    unfold baseParse at h
    cases hp : parseField input s0 with
    | error e => rw [hp] at h; simp at h
    | ok r =>
      cases hb : baseParse rest input with
      | error e => rw [hp, hb] at h; simp at h
      | ok out' =>
        rw [hp, hb] at h
        rcases List.mem_cons.mp hmem with rfl | hmem'
        · rw [hp]
          cases r with
          | some kv =>
            simp only [Except.ok.injEq] at h
            subst h
            obtain ⟨k1, v1⟩ := kv
            have hk' : k1 = s.key := parseField_ok_key hp
            subst hk'
            rw [jsGet_cons, if_pos rfl]
          | none =>
            simp only [Except.ok.injEq] at h
            subst h
            apply jsGet_eq_undef_of_not_hasKey
            cases hh : hasKey out' s.key with
            | false => rfl
            | true =>
              obtain ⟨s', hs', hkey⟩ := baseParse_hasKey_imp hb hh
              exact absurd (hkey ▸ List.mem_map_of_mem FieldSpec.key hs') hnd.1
        · have hne : s0.key ≠ s.key :=
            fun he => hnd.1 (he ▸ List.mem_map_of_mem FieldSpec.key hmem')
          cases r with
          | some kv =>
            simp only [Except.ok.injEq] at h
            subst h
            obtain ⟨k1, v1⟩ := kv
            have hk' : k1 = s0.key := parseField_ok_key hp
            subst hk'
            rw [jsGet_cons, if_neg hne]
            exact ih hb hnd.2 hmem'
          | none =>
            simp only [Except.ok.injEq] at h
            subst h
            exact ih hb hnd.2 hmem'

theorem monitorConfigSpecs_keys_nodup : (monitorConfigSpecs.map FieldSpec.key).Nodup := by
  decide

/-- After a successful base parse of the monitor configuration schema, an
optional field with no default is `undefined` in the parsed record exactly
when it is `undefined` in the raw input. -/
theorem baseParse_undef_iff {input out : JSObject} {k : String} {c : JSValue → Bool}
    (h : baseParse monitorConfigSpecs input = .ok out)
    (hmem : optField k c ∈ monitorConfigSpecs) :
    (jsGet out k).isUndefined = (jsGet input k).isUndefined := by
  have hg : jsGet out k =
      (match parseField input (optField k c) with
        | .ok (some kv) => kv.2
        | _ => .undefined) := baseParse_jsGet h monitorConfigSpecs_keys_nodup hmem
  have hne := baseParse_no_field_error h hmem
  by_cases hu : (jsGet input k).isUndefined = true
  · have hp : parseField input (optField k c) = .ok none := by
      simp only [parseField, optField]
      rw [if_pos hu]
      rfl
    rw [hp] at hg
    rw [hg, hu]
    rfl
  · rw [Bool.not_eq_true] at hu
    cases hc : c (jsGet input k) with
    | false =>
      have hp : parseField input (optField k c) = .error () := by
        simp only [parseField, optField]
        rw [if_neg (by simp [hu]), if_neg (by simp [hc])]
      exact absurd hp hne
    | true =>
      have hp : parseField input (optField k c) = .ok (some (k, jsGet input k)) := by
        simp only [parseField, optField]
        rw [if_neg (by simp [hu]), if_pos hc]
      rw [hp] at hg
      rw [hg]

/-- Every field some monitor type requires is an optional, default-free
field of the configuration schema, so its `undefined`-ness survives the
base parse. -/
theorem required_field_undef_iff {input out : JSObject}
    (h : baseParse monitorConfigSpecs input = .ok out)
    (ty : MonitorType) {f : String} (hf : f ∈ MONITOR_TYPE_REQUIRED_FIELDS ty) :
    (jsGet out f).isUndefined = (jsGet input f).isUndefined := by
  have hsub : ∀ g ∈ MONITOR_TYPE_REQUIRED_FIELDS ty,
      g ∈ ["url", "hostname", "port", "keyword", "jsonPath", "jsonPathOperator", "expectedValue"] := by
    cases ty <;> decide
  have hm := hsub f hf
  simp only [List.mem_cons, List.not_mem_nil, or_false] at hm
  rcases hm with rfl | rfl | rfl | rfl | rfl | rfl | rfl
  · exact baseParse_undef_iff (c := isStr) h (by simp [monitorConfigSpecs])
  · exact baseParse_undef_iff (c := isStr) h (by simp [monitorConfigSpecs])
  · exact baseParse_undef_iff (c := isNum) h (by simp [monitorConfigSpecs])
  · exact baseParse_undef_iff (c := isStr) h (by simp [monitorConfigSpecs])
  · exact baseParse_undef_iff (c := isStr) h (by simp [monitorConfigSpecs])
  · exact baseParse_undef_iff (c := isEnumOf ["==", "!=", ">", ">=", "<", "<=", "contains"]) h
      (by simp [monitorConfigSpecs])
  · exact baseParse_undef_iff (c := isStr) h (by simp [monitorConfigSpecs])

/-! ## C1: create-path validation against the per-type required set -/

/-- The issue list claim C1 describes: one issue per required field of the
type that is absent (`undefined`) in the raw create input, naming the field
and the type. Stated over the raw input so the theorem compares the code's
refinement (which runs on the parsed record) against the claim's wording. -/
def claimedMissingIssues (ty : MonitorType) (input : JSObject) : List Issue :=
  (MONITOR_TYPE_REQUIRED_FIELDS ty).filterMap (fun f =>
    if (jsGet input f).isUndefined then some (requiredIssue ty f) else none)

/-- Claim C1: For every monitor type, validating a create (`add_monitor`)
input against `MonitorConfigSchema` fails exactly when some field of that
type's required set is absent (`undefined`) in the input, and on failure it
registers one issue per missing required field — each naming the field and
the type — not just the first; an input whose declared fields are
well-typed (the base parse succeeds, arbitrary unknown keys being stripped,
not rejected) and that supplies every required field passes validation. -/
theorem monitor_create_validation (ty : MonitorType) (input data : JSObject)
    (hbase : baseParse monitorConfigSpecs input = .ok data)
    (hty : jsGet data "type" = .str ty.name) :
    monitorConfigSafeParse input =
      (match claimedMissingIssues ty input with
        | [] => ParseResult.ok data
        | issues => ParseResult.refineError issues)
    ∧ (monitorConfigSafeParse input = ParseResult.ok data ↔
        ∀ f ∈ MONITOR_TYPE_REQUIRED_FIELDS ty, (jsGet input f).isUndefined = false) := by
  have hiss : superRefineIssues data = claimedMissingIssues ty input := by
    simp only [superRefineIssues, claimedMissingIssues, hty, strToMonitorType_name]
    exact List.filterMap_congr (fun f hf => by rw [required_field_undef_iff hbase ty hf])
  have h1 : monitorConfigSafeParse input =
      (match claimedMissingIssues ty input with
        | [] => ParseResult.ok data
        | issues => ParseResult.refineError issues) := by
    simp only [monitorConfigSafeParse, hbase, hiss]
  refine ⟨h1, ?_⟩
  rw [h1]
  cases hl : claimedMissingIssues ty input with
  | nil =>
    simp only [hl]
    constructor
    · intro _ f hf
      by_contra hc
      rw [Bool.not_eq_false] at hc
      have hnone := List.filterMap_eq_nil_iff.mp hl f hf
      rw [if_pos hc] at hnone
      exact Option.noConfusion hnone
    · intro _
      trivial
  | cons a as =>
    simp only [hl]
    constructor
    · intro hcontra
      exact ParseResult.noConfusion hcontra
    · intro hall
      exfalso
      have hnil : claimedMissingIssues ty input = [] := by
        rw [claimedMissingIssues, List.filterMap_eq_nil_iff]
        intro f hf
        rw [if_neg (by simp [hall f hf])]
      rw [hnil] at hl
      exact List.noConfusion hl

def c1WitnessInput : JSObject :=
  [("name", .str "a"), ("type", .str "port"), ("hostname", .str "h"),
   ("port", .num 1), ("bogus", .str "x")]

def c1WitnessData : JSObject :=
  [("name", .str "a"), ("type", .str "port"), ("hostname", .str "h"),
   ("port", .num 1), ("interval", .num 60), ("retryInterval", .num 60),
   ("maxretries", .num 0), ("resendInterval", .num 0),
   ("notificationIDList", .obj []), ("active", .bool true),
   ("requestTimeout", .num 48), ("upsideDown", .bool false),
   ("expiryNotification", .bool false), ("ignoreTls", .bool false),
   ("uptimeKumaCachebuster", .bool false), ("maxredirects", .num 10),
   ("accepted_statuscodes", .arr [.str "200-299"]), ("packetSize", .num 56),
   ("maxPackets", .num 1), ("numericOutput", .bool false),
   ("perPingTimeout", .num 2)]

/-- Witness for C1: a `port` create input with both required fields and an
irrelevant extra key passes validation. -/
theorem monitor_create_validation_witness :
    monitorConfigSafeParse c1WitnessInput = ParseResult.ok c1WitnessData :=
  (monitor_create_validation .port c1WitnessInput c1WitnessData rfl rfl).2.mpr (by decide)

/-! ## C6: the update schema and the required-field check -/

theorem baseParse_ok_of_no_field_error {specs : List FieldSpec} {input : JSObject}
    (h : ∀ s ∈ specs, parseField input s ≠ .error ()) :
    ∃ out, baseParse specs input = .ok out := by
  induction specs with
  | nil => exact ⟨[], rfl⟩
  | cons s0 rest ih =>
    obtain ⟨out', hb⟩ := ih (fun s hs => h s (List.mem_cons_of_mem _ hs))
    cases hp : parseField input s0 with
    | error e => exact absurd hp (h s0 (List.mem_cons_self _ _))
    | ok r =>
      cases r with
      | some kv =>
        refine ⟨kv :: out', ?_⟩
        unfold baseParse
        rw [hp, hb]
      | none =>
        refine ⟨out', ?_⟩
        unfold baseParse
        rw [hp, hb]

/-- An update input is well-typed for `UpdateMonitorInputSchema` when its
`id` is present and every declared field that is present passes its type
check (absent fields are fine: every config field is optional there). -/
def updateWellTyped (input : JSObject) : Bool :=
  updateInputSpecs.all (fun s =>
    let v := jsGet input s.key
    if v.isUndefined then !s.req else s.check v)

/-- Counterexample to C6 as stated: the update input
`{ id: 1, type: "http" }` includes `type` but no `url`, yet
`UpdateMonitorInputSchema` accepts it — spreading
`MonitorConfigSchema.partial().shape` into a fresh `z.object` carries only
the field declarations, not the `superRefine` required-field check, so the
check is not applied even when `type` is present. -/
theorem update_required_check_counterexample :
    updateSafeParse [("id", JSValue.num 1), ("type", JSValue.str "http")] =
      ParseResult.ok [("id", JSValue.num 1), ("type", JSValue.str "http")]
    ∧ "url" ∈ MONITOR_TYPE_REQUIRED_FIELDS MonitorType.http
    ∧ (jsGet [("id", JSValue.num 1), ("type", JSValue.str "http")] "url").isUndefined = true :=
  ⟨rfl, by decide, rfl⟩

/-- Claim C6, amended: Validation of an `update_monitor_by_id` input never
performs the type-specific required-field check — not only for inputs
lacking `type`, but also for inputs that include `type`: a well-typed
update input parses successfully even when required fields of its declared
type are absent, and the update parse never produces refinement issues. -/
theorem update_validation_skips_required_check (input : JSObject) (ty : MonitorType)
    (f : String) (hwt : updateWellTyped input = true)
    (hty : jsGet input "type" = .str ty.name)
    (hf : f ∈ MONITOR_TYPE_REQUIRED_FIELDS ty)
    (hmiss : (jsGet input f).isUndefined = true) :
    (∃ d, updateSafeParse input = ParseResult.ok d)
    ∧ ∀ issues, updateSafeParse input ≠ ParseResult.refineError issues := by
  have hok : ∀ s ∈ updateInputSpecs, parseField input s ≠ .error () := by
    intro s hs
    have hs' := List.all_eq_true.mp hwt s hs
    simp only at hs'
    simp only [parseField]
    by_cases hu : (jsGet input s.key).isUndefined = true
    · rw [if_pos hu] at hs' ⊢
      cases hd : s.dflt with
      | some d => simp
      | none =>
        have hreq : s.req = false := by
          cases hr : s.req with
          | false => rfl
          | true => rw [hr] at hs'; exact absurd hs' (by simp)
        rw [if_neg (by simp [hreq])]
        simp
    · rw [Bool.not_eq_true] at hu
      rw [if_neg (by simp [hu])] at hs' ⊢
      rw [if_pos hs']
      simp
  obtain ⟨out, hout⟩ := baseParse_ok_of_no_field_error hok
  constructor
  · exact ⟨out, by simp only [updateSafeParse, hout]⟩
  · intro issues
    simp only [updateSafeParse, hout]
    exact fun hc => ParseResult.noConfusion hc

/-- Witness for the amended C6: the counterexample input itself — `type`
present, `url` (required for `http`) missing — passes the update parse. -/
theorem update_validation_skips_required_check_witness :
    (∃ d, updateSafeParse [("id", JSValue.num 1), ("type", JSValue.str "http")] =
      ParseResult.ok d)
    ∧ updateSafeParse [("id", JSValue.num 1), ("type", JSValue.str "http")] ≠
      ParseResult.refineError [] := by
  have h := update_validation_skips_required_check
    [("id", JSValue.num 1), ("type", JSValue.str "http")] .http "url" rfl rfl (by decide) rfl
  exact ⟨h.1, h.2 []⟩

/-! ## C2, C7, C8: properties of the payload projection -/

theorem strToMonitorType_eq_some {s : String} {ty : MonitorType}
    (h : strToMonitorType s = some ty) : s = ty.name := by
  unfold strToMonitorType at h
  split at h <;> first
    | (injection h with h2; subst h2; rfl)
    | exact Option.noConfusion h

theorem name_truthy (ty : MonitorType) : (JSValue.str ty.name).truthy = true := by
  cases ty <;> decide

theorem type_mem_fields (ty : MonitorType) : "type" ∈ MONITOR_TYPE_FIELDS ty := by
  cases ty <;> decide

theorem notifList_mem_fields (ty : MonitorType) :
    "notificationIDList" ∈ MONITOR_TYPE_FIELDS ty := by
  cases ty <;> decide

theorem conditions_not_mem_fields (ty : MonitorType) :
    "conditions" ∉ MONITOR_TYPE_FIELDS ty := by
  cases ty <;> decide

theorem monitorKeep_conditions_false (ty : MonitorType) (v : JSValue) :
    monitorKeep (MONITOR_TYPE_FIELDS ty) ("conditions", v) = false := by
  simp [monitorKeep, conditions_not_mem_fields ty]

/-- Flattened form of the create-path defaulting: the three conditional
appends depend only on the original payload's keys (each appended entry has
a key different from the other two checks). -/
theorem addCreateDefaults_eq_append (input payload : JSObject)
    (hguard : ((jsGet input "type").truthy && !hasKey input "id") = true) :
    addCreateDefaults input payload =
      payload
        ++ (if hasKey payload "notificationIDList" then []
            else [("notificationIDList", .obj [])])
        ++ (if hasKey payload "accepted_statuscodes" then []
            else [("accepted_statuscodes", .arr [.str "200-299"])])
        ++ (if hasKey payload "conditions" then [] else [("conditions", .arr [])]) := by
  unfold addCreateDefaults
  rw [if_pos hguard]
  by_cases h1 : hasKey payload "notificationIDList" = true <;>
    by_cases h2 : hasKey payload "accepted_statuscodes" = true <;>
      by_cases h3 : hasKey payload "conditions" = true <;>
        simp [h1, h2, h3, hasKey_append, hasKey_cons, List.append_assoc]

/-- When the guard is off (no truthy `type`, or an `id` key is present),
the defaulting block leaves the payload alone. -/
theorem addCreateDefaults_eq_self (input payload : JSObject)
    (hguard : ((jsGet input "type").truthy && !hasKey input "id") = false) :
    addCreateDefaults input payload = payload := by
  unfold addCreateDefaults
  rw [if_neg (by simp [hguard])]

/-- Reduction of the projection for an input whose `type` is a recognized
enum string. -/
theorem transform_typed (input : JSObject) {s : String} {ty : MonitorType}
    (hty : jsGet input "type" = .str s) (hs : strToMonitorType s = some ty) :
    transformMonitorPayload input =
      some (addCreateDefaults input (input.filter (monitorKeep (MONITOR_TYPE_FIELDS ty)))) := by
  have hstr : s = ty.name := strToMonitorType_eq_some hs
  unfold transformMonitorPayload
  rw [hty, if_pos (by rw [hstr]; exact name_truthy ty)]
  simp only [monitorTypeOfValue, hs]

/-- Reduction of the projection for an input with no truthy `type`. -/
theorem transform_untyped (input : JSObject)
    (hty : (jsGet input "type").truthy = false) :
    transformMonitorPayload input = some (input.filter definedKeep) := by
  unfold transformMonitorPayload
  rw [if_neg (by simp [hty]), addCreateDefaults_eq_self]
  rw [hty, Bool.false_and]

/-- Claim C8: On the create path only (recognized `type`, no `id` key), after
filtering, `transformMonitorPayload` fills in exactly these defaults for
keys absent from the projected payload: `notificationIDList` becomes the
empty mapping, `accepted_statuscodes` becomes `["200-299"]`, and
`conditions` (which the projection can never produce) becomes the empty
list; no such defaulting happens when an `id` key is present or `type` is
absent. -/
theorem transform_create_defaults (input : JSObject) (ty : MonitorType) (s : String) :
    ((jsGet input "type" = .str s ∧ strToMonitorType s = some ty ∧ hasKey input "id" = false) →
      transformMonitorPayload input =
        some (input.filter (monitorKeep (MONITOR_TYPE_FIELDS ty))
          ++ (if hasKey (input.filter (monitorKeep (MONITOR_TYPE_FIELDS ty))) "notificationIDList"
              then [] else [("notificationIDList", .obj [])])
          ++ (if hasKey (input.filter (monitorKeep (MONITOR_TYPE_FIELDS ty))) "accepted_statuscodes"
              then [] else [("accepted_statuscodes", .arr [.str "200-299"])])
          ++ [("conditions", .arr [])]))
    ∧ ((jsGet input "type" = .str s ∧ strToMonitorType s = some ty ∧ hasKey input "id" = true) →
      transformMonitorPayload input =
        some (input.filter (monitorKeep (MONITOR_TYPE_FIELDS ty))))
    ∧ (jsGet input "type" = .undefined →
      transformMonitorPayload input = some (input.filter definedKeep)) := by
  refine ⟨?_, ?_, ?_⟩
  · rintro ⟨hty, hs, hid⟩
    have hstr := strToMonitorType_eq_some hs
    have hguard : ((jsGet input "type").truthy && !hasKey input "id") = true := by
      rw [hty, hstr, hid, name_truthy]
      rfl
    rw [transform_typed input hty hs, addCreateDefaults_eq_append _ _ hguard,
      hasKey_filter_eq_false (monitorKeep_conditions_false ty)]
    simp
  · rintro ⟨hty, hs, hid⟩
    rw [transform_typed input hty hs, addCreateDefaults_eq_self _ _ (by rw [hid]; simp)]
  · intro hty
    exact transform_untyped input (by rw [hty]; rfl)

/-- Witness for C8: a plain `http` create input gets all three defaults
appended after its projected fields. -/
theorem transform_create_defaults_witness :
    transformMonitorPayload
        [("name", JSValue.str "b"), ("type", JSValue.str "http"), ("url", JSValue.str "u")] =
      some [("name", JSValue.str "b"), ("type", JSValue.str "http"), ("url", JSValue.str "u"),
        ("notificationIDList", JSValue.obj []),
        ("accepted_statuscodes", JSValue.arr [JSValue.str "200-299"]),
        ("conditions", JSValue.arr [])] := by
  have h := (transform_create_defaults
    [("name", JSValue.str "b"), ("type", JSValue.str "http"), ("url", JSValue.str "u")]
    .http "http").1 ⟨rfl, rfl, rfl⟩
  exact h.trans (by rfl)

theorem mem_filter_monitorKeep {input : JSObject} {fields : List String}
    {k : String} {v : JSValue} :
    (k, v) ∈ input.filter (monitorKeep fields) ↔
      (k, v) ∈ input ∧ v.isUndefined = false ∧ (k = "id" ∨ k ∈ fields) := by
  rw [List.mem_filter]
  simp only [monitorKeep, Bool.and_eq_true, Bool.or_eq_true, decide_eq_true_eq,
    Bool.not_eq_true']
  try tauto

/-- Counterexample to C2 as stated: for the typed create input
`{ type: "port", name: "a" }`, the transformation's result is not exactly
the input's attributes from the allowed set — the create-path defaulting
appends a `conditions` attribute (among others) that the input never
contained. -/
theorem transform_projection_counterexample :
    transformMonitorPayload [("type", JSValue.str "port"), ("name", JSValue.str "a")] =
      some [("type", JSValue.str "port"), ("name", JSValue.str "a"),
        ("notificationIDList", JSValue.obj []),
        ("accepted_statuscodes", JSValue.arr [JSValue.str "200-299"]),
        ("conditions", JSValue.arr [])]
    ∧ hasKey [("type", JSValue.str "port"), ("name", JSValue.str "a")] "conditions" = false
    ∧ "conditions" ∉ MONITOR_TYPE_FIELDS MonitorType.port :=
  ⟨rfl, rfl, by decide⟩

theorem mem_ite_nil_singleton {α : Type} {b : Prop} [Decidable b] {x a : α}
    (h : a ∈ (if b then ([] : List α) else [x])) : a = x := by
  split at h
  · simp at h
  · simpa using h

/-- Claim C2, amended: For an input whose `type` is a recognized enum
string, the transformation keeps exactly the input's attributes that are in
that type's allowed field set, plus the `id` attribute, dropping every
attribute whose value is `undefined` — except that, when the input has no
`id` key, the create-path defaults of C8 (entries for `notificationIDList`,
`accepted_statuscodes` and `conditions`) are additionally appended when
their keys are absent from the projected payload. For an input whose `type`
is absent, it returns all defined attributes of the input unchanged. -/
theorem transform_projection_amended (input : JSObject) (ty : MonitorType) (s : String) :
    ((jsGet input "type" = .str s ∧ strToMonitorType s = some ty ∧ hasKey input "id" = true) →
      transformMonitorPayload input =
        some (input.filter (monitorKeep (MONITOR_TYPE_FIELDS ty)))
      ∧ ∀ k v, ((k, v) ∈ input.filter (monitorKeep (MONITOR_TYPE_FIELDS ty)) ↔
          (k, v) ∈ input ∧ v.isUndefined = false ∧ (k = "id" ∨ k ∈ MONITOR_TYPE_FIELDS ty)))
    ∧ ((jsGet input "type" = .str s ∧ strToMonitorType s = some ty ∧ hasKey input "id" = false) →
      ∃ p extras, transformMonitorPayload input = some p ∧
        p = input.filter (monitorKeep (MONITOR_TYPE_FIELDS ty)) ++ extras ∧
        extras ⊆ [("notificationIDList", JSValue.obj []),
          ("accepted_statuscodes", JSValue.arr [JSValue.str "200-299"]),
          ("conditions", JSValue.arr [])] ∧
        (∀ k v, k ≠ "notificationIDList" → k ≠ "accepted_statuscodes" → k ≠ "conditions" →
          ((k, v) ∈ p ↔
            (k, v) ∈ input ∧ v.isUndefined = false ∧ (k = "id" ∨ k ∈ MONITOR_TYPE_FIELDS ty))))
    ∧ (jsGet input "type" = .undefined →
      transformMonitorPayload input = some (input.filter definedKeep)
      ∧ ∀ k v, ((k, v) ∈ input.filter definedKeep ↔
          (k, v) ∈ input ∧ v.isUndefined = false)) := by
  refine ⟨?_, ?_, ?_⟩
  · rintro ⟨hty, hs, hid⟩
    refine ⟨?_, fun k v => mem_filter_monitorKeep⟩
    rw [transform_typed input hty hs, addCreateDefaults_eq_self _ _ (by rw [hid]; simp)]
  · rintro ⟨hty, hs, hid⟩
    have hstr := strToMonitorType_eq_some hs
    have hguard : ((jsGet input "type").truthy && !hasKey input "id") = true := by
      rw [hty, hstr, hid, name_truthy]
      rfl
    refine ⟨input.filter (monitorKeep (MONITOR_TYPE_FIELDS ty))
        ++ ((if hasKey (input.filter (monitorKeep (MONITOR_TYPE_FIELDS ty))) "notificationIDList"
            then [] else [("notificationIDList", JSValue.obj [])])
          ++ ((if hasKey (input.filter (monitorKeep (MONITOR_TYPE_FIELDS ty))) "accepted_statuscodes"
              then [] else [("accepted_statuscodes", JSValue.arr [JSValue.str "200-299"])])
            ++ [("conditions", JSValue.arr [])])),
      (if hasKey (input.filter (monitorKeep (MONITOR_TYPE_FIELDS ty))) "notificationIDList"
          then [] else [("notificationIDList", JSValue.obj [])])
        ++ ((if hasKey (input.filter (monitorKeep (MONITOR_TYPE_FIELDS ty))) "accepted_statuscodes"
            then [] else [("accepted_statuscodes", JSValue.arr [JSValue.str "200-299"])])
          ++ [("conditions", JSValue.arr [])]),
      ?_, rfl, ?_, ?_⟩
    · rw [transform_typed input hty hs, addCreateDefaults_eq_append _ _ hguard,
        hasKey_filter_eq_false (monitorKeep_conditions_false ty)]
      simp [List.append_assoc]
    · intro a ha
      rcases List.mem_append.mp ha with h1 | h1
      · rw [mem_ite_nil_singleton h1]
        simp
      · rcases List.mem_append.mp h1 with h2 | h2
        · rw [mem_ite_nil_singleton h2]
          simp
        · simp only [List.mem_singleton] at h2
          rw [h2]
          simp
    · intro k v hk1 hk2 hk3
      rw [List.mem_append]
      constructor
      · rintro (hin | hin)
        · exact mem_filter_monitorKeep.mp hin
        · exfalso
          rcases List.mem_append.mp hin with h2 | h2
          · exact hk1 (congrArg Prod.fst (mem_ite_nil_singleton h2))
          · rcases List.mem_append.mp h2 with h3 | h3
            · exact hk2 (congrArg Prod.fst (mem_ite_nil_singleton h3))
            · simp only [List.mem_singleton] at h3
              exact hk3 (congrArg Prod.fst h3)
      · intro hin
        exact Or.inl (mem_filter_monitorKeep.mpr hin)
  · intro hty
    refine ⟨transform_untyped input (by rw [hty]; rfl), fun k v => ?_⟩
    rw [List.mem_filter]
    simp [definedKeep, Bool.not_eq_true']

/-- Witness for the amended C2: an `http` update payload (an `id` key is
present) keeps exactly its allowed attributes plus `id`; `hostname` is not
in the `http` table and the `undefined`-valued `method` is dropped. -/
theorem transform_projection_amended_witness :
    transformMonitorPayload
        [("id", JSValue.num 5), ("type", JSValue.str "http"), ("hostname", JSValue.str "x"),
         ("url", JSValue.str "u"), ("method", JSValue.undefined)] =
      some [("id", JSValue.num 5), ("type", JSValue.str "http"), ("url", JSValue.str "u")] := by
  have h := (transform_projection_amended
    [("id", JSValue.num 5), ("type", JSValue.str "http"), ("hostname", JSValue.str "x"),
     ("url", JSValue.str "u"), ("method", JSValue.undefined)] .http "http").1 ⟨rfl, rfl, rfl⟩
  exact h.1.trans (by rfl)

theorem isUndef_eq_false_iff {v : JSValue} : v.isUndefined = false ↔ v ≠ .undefined := by
  cases v <;> simp [JSValue.isUndefined]

theorem monitorTypeOfValue_eq_some {v : JSValue} {ty : MonitorType}
    (h : monitorTypeOfValue v = some ty) : v = .str ty.name := by
  cases v <;> simp_all [monitorTypeOfValue]
  exact strToMonitorType_eq_some h

/-- Claim C7: The payload transformation is idempotent: applying
`transformMonitorPayload` to a payload it has already produced (same type
value, same presence or absence of `id`) yields that payload unchanged — no
attribute reappears after being dropped and the appended create-path
defaults are stable. -/
theorem transform_idempotent (input p : JSObject)
    (hnd : (input.map Prod.fst).Nodup)
    (h : transformMonitorPayload input = some p)
    (hid : hasKey input "id" = hasKey p "id") :
    transformMonitorPayload p = some p := by
  by_cases htr : (jsGet input "type").truthy = true
  case neg =>
    have htr' : (jsGet input "type").truthy = false := by
      cases hb : (jsGet input "type").truthy
      · rfl
      · exact absurd hb htr
    rw [transform_untyped input htr'] at h
    have hpeq : p = input.filter definedKeep := by
      injection h with h1
      exact h1.symm
    have hty2 : (jsGet (input.filter definedKeep) "type").truthy = false := by
      by_cases hu : (jsGet input "type").isUndefined = true
      · have hk : hasKey (input.filter definedKeep) "type" = false := by
          rw [hasKey_filter hnd]
          simp [definedKeep, hu]
        rw [jsGet_eq_undef_of_not_hasKey hk]
        rfl
      · rw [Bool.not_eq_true] at hu
        have hkey : hasKey input "type" = true :=
          hasKey_of_jsGet_ne (isUndef_eq_false_iff.mp hu)
        rw [jsGet_filter_of_pass hnd (by rw [hkey]; simp [definedKeep, hu])]
        exact htr'
    rw [hpeq, transform_untyped _ hty2]
    congr 1
    exact List.filter_eq_self.mpr (fun a ha => (List.mem_filter.mp ha).2)
  case pos =>
    cases hm : monitorTypeOfValue (jsGet input "type") with
    | none =>
      rw [show transformMonitorPayload input = none by
        unfold transformMonitorPayload
        rw [if_pos htr, hm]] at h
      exact Option.noConfusion h
    | some ty =>
      have hty : jsGet input "type" = .str ty.name := monitorTypeOfValue_eq_some hm
      have hs : strToMonitorType ty.name = some ty := strToMonitorType_name ty
      rw [transform_typed input hty hs] at h
      have hktype : hasKey input "type" = true :=
        hasKey_of_jsGet_ne (by rw [hty]; exact fun hc => JSValue.noConfusion hc)
      have hkeeptype : monitorKeep (MONITOR_TYPE_FIELDS ty) ("type", jsGet input "type") = true := by
        rw [hty]
        simp [monitorKeep, JSValue.isUndefined, type_mem_fields ty]
      have hPtype : jsGet (input.filter (monitorKeep (MONITOR_TYPE_FIELDS ty))) "type" =
          .str ty.name := by
        rw [jsGet_filter_of_pass hnd (by rw [hktype, hkeeptype]; rfl), hty]
      have hPfilter : (input.filter (monitorKeep (MONITOR_TYPE_FIELDS ty))).filter
          (monitorKeep (MONITOR_TYPE_FIELDS ty)) =
          input.filter (monitorKeep (MONITOR_TYPE_FIELDS ty)) :=
        List.filter_eq_self.mpr (fun a ha => (List.mem_filter.mp ha).2)
      by_cases hA : hasKey input "id" = true
      · have hpeq : p = input.filter (monitorKeep (MONITOR_TYPE_FIELDS ty)) := by
          rw [addCreateDefaults_eq_self input _ (by rw [hA]; simp)] at h
          injection h with h1
          exact h1.symm
        have hPid : hasKey (input.filter (monitorKeep (MONITOR_TYPE_FIELDS ty))) "id" = true := by
          rw [← hpeq, ← hid]
          exact hA
        rw [hpeq, transform_typed _ hPtype hs, hPfilter,
          addCreateDefaults_eq_self _ _ (by rw [hPid]; simp)]
      · have hB : hasKey input "id" = false := by
          cases hb : hasKey input "id"
          · rfl
          · exact absurd hb hA
        have hguard : ((jsGet input "type").truthy && !hasKey input "id") = true := by
          rw [htr, hB]
          rfl
        have hPcond : hasKey (input.filter (monitorKeep (MONITOR_TYPE_FIELDS ty)))
            "conditions" = false :=
          hasKey_filter_eq_false (monitorKeep_conditions_false ty)
        rw [addCreateDefaults_eq_append input _ hguard,
          if_neg (show ¬hasKey (input.filter (monitorKeep (MONITOR_TYPE_FIELDS ty)))
            "conditions" = true by simp [hPcond])] at h
        have keepn : monitorKeep (MONITOR_TYPE_FIELDS ty)
            ("notificationIDList", JSValue.obj []) = true := by
          simp [monitorKeep, JSValue.isUndefined, notifList_mem_fields ty]
        have keepc : monitorKeep (MONITOR_TYPE_FIELDS ty)
            ("conditions", JSValue.arr []) = false :=
          monitorKeep_conditions_false ty (JSValue.arr [])
        have keepa : monitorKeep (MONITOR_TYPE_FIELDS ty)
            ("accepted_statuscodes", JSValue.arr [JSValue.str "200-299"]) =
            decide ("accepted_statuscodes" ∈ MONITOR_TYPE_FIELDS ty) := by
          simp [monitorKeep, JSValue.isUndefined]
        have hPktype : hasKey (input.filter (monitorKeep (MONITOR_TYPE_FIELDS ty))) "type" = true :=
          hasKey_of_jsGet_ne (by rw [hPtype]; exact fun hc => JSValue.noConfusion hc)
        have hpeq : p = input.filter (monitorKeep (MONITOR_TYPE_FIELDS ty))
            ++ (if hasKey (input.filter (monitorKeep (MONITOR_TYPE_FIELDS ty)))
                "notificationIDList" then [] else [("notificationIDList", JSValue.obj [])])
            ++ (if hasKey (input.filter (monitorKeep (MONITOR_TYPE_FIELDS ty)))
                "accepted_statuscodes" then []
                else [("accepted_statuscodes", JSValue.arr [JSValue.str "200-299"])])
            ++ [("conditions", JSValue.arr [])] := by
          injection h with h1
          exact h1.symm
        have hptype : jsGet p "type" = .str ty.name := by
          rw [hpeq]
          simp [jsGet_append, hasKey_append, hPktype, hPtype]
        have hpid : hasKey p "id" = false := by
          rw [← hid]
          exact hB
        have hguardp : ((jsGet p "type").truthy && !hasKey p "id") = true := by
          rw [hptype, hpid, name_truthy]
          rfl
        rw [transform_typed p hptype hs, addCreateDefaults_eq_append p _ hguardp, hpeq]
        by_cases hn : hasKey (input.filter (monitorKeep (MONITOR_TYPE_FIELDS ty))) "notificationIDList" = true <;>
          by_cases ha : hasKey (input.filter (monitorKeep (MONITOR_TYPE_FIELDS ty))) "accepted_statuscodes" = true <;>
            by_cases hacc : "accepted_statuscodes" ∈ MONITOR_TYPE_FIELDS ty <;>
              simp [List.filter_append, hPfilter, List.filter_cons, keepn, keepc, keepa,
                hasKey_append, hasKey_cons, hn, ha, hacc, hPcond, List.append_assoc]

def c7WitnessInput : JSObject :=
  [("type", .str "port"), ("name", .str "a"), ("hostname", .str "h"), ("port", .num 1)]

def c7WitnessPayload : JSObject :=
  [("type", .str "port"), ("name", .str "a"), ("hostname", .str "h"), ("port", .num 1),
   ("notificationIDList", .obj []),
   ("accepted_statuscodes", .arr [.str "200-299"]),
   ("conditions", .arr [])]

/-- Witness for C7: re-projecting the payload produced for a `port` create
input returns that payload unchanged. -/
theorem transform_idempotent_witness :
    transformMonitorPayload c7WitnessPayload = some c7WitnessPayload :=
  transform_idempotent c7WitnessInput c7WitnessPayload (by decide) rfl rfl

/-! ## C3: updateMonitorById (src/client.ts) -/

/-- The remote interactions one `updateMonitorById` call performs, as
oracles: the result of `getMonitorById` before the edit, the acknowledgment
of the `editMonitor` event (a function of the submitted payload), and the
result of `getMonitorById` after the edit. An `Except.error` for a fetch is
the rejection string of `getMonitorById`; the acknowledgment carries the
`ok` flag and the optional `msg`. -/
structure UpdateEnv where
  fetchBefore : Int → Except String JSObject
  editAck : JSObject → Bool × Option String
  fetchAfter : Int → Except String JSObject

/-- What one `updateMonitorById` run did: the payload submitted on the
`editMonitor` event (when one was emitted) and how the returned promise
settled. -/
structure UpdateOutcome where
  submitted : Option JSObject
  result : Except String JSObject

/-- `UptimeKumaClient.updateMonitorById` (src/client.ts): fetch the current
record by `input.id`, shallow-merge the projected partial update over it,
emit `editMonitor` with the merged record, and on an ok acknowledgment
re-fetch by `input.id`, resolving with that record; a failed re-fetch
rejects with a wrapping message. `none` models the thrown type error of the
projection (invalid truthy `type`) or a non-numeric `id`. -/
def updateMonitorById (env : UpdateEnv) (input : JSObject) : Option UpdateOutcome :=
  match jsGet input "id" with
  | .num i =>
    match env.fetchBefore i with
    | .error e => some ⟨none, .error e⟩
    | .ok existing =>
      match transformMonitorPayload input with
      | none => none
      | some proj =>
        let payload := jsSpread existing proj
        match env.editAck payload with
        | (false, msg) =>
          some ⟨some payload, .error ("Failed to update monitor: " ++ msg.getD "Unknown error")⟩
        | (true, _) =>
          match env.fetchAfter i with
          | .ok m => some ⟨some payload, .ok m⟩
          | .error e =>
            some ⟨some payload, .error ("Failed to fetch updated monitor after edit: " ++ e)⟩
  | _ => none

/-- Claim C3: `updateMonitorById` first fetches the current full record by
`input.id`, shallow-merges the projected partial update over it, submits
exactly that merged record, then re-fetches by `input.id`: on a successful
re-fetch it resolves with that authoritative post-update record, and when
the re-fetch fails the whole update fails with a wrapping error — it never
falls back to resolving with the locally merged object. -/
theorem updateMonitorById_read_modify_write (env : UpdateEnv) (input existing proj : JSObject)
    (i : Int) (hidn : jsGet input "id" = .num i)
    (hfetch : env.fetchBefore i = .ok existing)
    (htr : transformMonitorPayload input = some proj) :
    (∀ m, env.editAck (jsSpread existing proj) = (true, m) →
      (∀ after, env.fetchAfter i = .ok after →
        updateMonitorById env input = some ⟨some (jsSpread existing proj), .ok after⟩)
      ∧ (∀ e, env.fetchAfter i = .error e →
        updateMonitorById env input =
          some ⟨some (jsSpread existing proj),
            .error ("Failed to fetch updated monitor after edit: " ++ e)⟩
        ∧ ∀ r, updateMonitorById env input ≠ some ⟨some (jsSpread existing proj), .ok r⟩))
    ∧ (∀ m, env.editAck (jsSpread existing proj) = (false, m) →
      updateMonitorById env input =
        some ⟨some (jsSpread existing proj),
          .error ("Failed to update monitor: " ++ m.getD "Unknown error")⟩) := by
  constructor
  · intro m hack
    constructor
    · intro after hafter
      simp only [updateMonitorById, hidn, hfetch, htr, hack, hafter]
    · intro e hafter
      have heq : updateMonitorById env input =
          some ⟨some (jsSpread existing proj),
            .error ("Failed to fetch updated monitor after edit: " ++ e)⟩ := by
        simp only [updateMonitorById, hidn, hfetch, htr, hack, hafter]
      refine ⟨heq, fun r hc => ?_⟩
      rw [heq] at hc
      simp at hc
  · intro m hack
    simp only [updateMonitorById, hidn, hfetch, htr, hack]

theorem hasKey_spreadMap (a b : JSObject) (k : String) :
    hasKey (a.map (fun kv => if hasKey b kv.1 then (kv.1, jsGet b kv.1) else kv)) k =
      hasKey a k := by
  induction a with
  | nil => rfl
  | cons hd tl ih =>
    obtain ⟨k', v'⟩ := hd
    by_cases hbk : hasKey b k' = true
    · simp only [List.map_cons, if_pos hbk, hasKey_cons, ih]
    · simp only [List.map_cons, if_neg hbk, hasKey_cons, ih]

theorem jsGet_spreadMap (a b : JSObject) (k : String) :
    jsGet (a.map (fun kv => if hasKey b kv.1 then (kv.1, jsGet b kv.1) else kv)) k =
      (if hasKey a k then (if hasKey b k then jsGet b k else jsGet a k) else .undefined) := by
  induction a with
  | nil => simp
  | cons hd tl ih =>
    obtain ⟨k', v'⟩ := hd
    by_cases hk : k' = k
    · subst hk
      by_cases hbk : hasKey b k' = true
      · simp [jsGet_cons, hasKey_cons, hbk]
      · simp only [Bool.not_eq_true] at hbk
        simp [jsGet_cons, hasKey_cons, hbk]
    · by_cases hbk : hasKey b k' = true
      · simp only [List.map_cons, if_pos hbk, jsGet_cons, if_neg hk, ih, hasKey_cons,
          decide_eq_false hk, Bool.false_or]
      · simp only [List.map_cons, if_neg hbk, jsGet_cons, if_neg hk, ih, hasKey_cons,
          decide_eq_false hk, Bool.false_or]

theorem jsGet_spread_filter (a b : JSObject) (k : String) (hak : hasKey a k = false) :
    jsGet (b.filter (fun kv => !hasKey a kv.1)) k = jsGet b k := by
  induction b with
  | nil => rfl
  | cons hd tl ih =>
    obtain ⟨k', v'⟩ := hd
    by_cases hk : k' = k
    · subst hk
      rw [List.filter_cons, if_pos (by simp [hak]), jsGet_cons, if_pos rfl,
        jsGet_cons, if_pos rfl]
    · rw [List.filter_cons, jsGet_cons, if_neg hk]
      cases hkeep : !hasKey a k' with
      | true => rw [if_pos (by simp [hkeep]), jsGet_cons, if_neg hk, ih]
      | false => rw [if_neg (by simp_all), ih]

/-- Reading a key through `{ ...a, ...b }`: `b` wins when it has the key,
else `a`'s value survives. -/
theorem jsGet_jsSpread (a b : JSObject) (k : String) :
    jsGet (jsSpread a b) k =
      if hasKey a k then (if hasKey b k then jsGet b k else jsGet a k) else jsGet b k := by
  unfold jsSpread
  rw [jsGet_append, hasKey_spreadMap, jsGet_spreadMap]
  by_cases hak : hasKey a k = true
  · rw [if_pos hak, if_pos hak, if_pos hak]
  · simp only [Bool.not_eq_true] at hak
    rw [hak]
    simp only [Bool.false_eq_true, if_false]
    exact jsGet_spread_filter a b k hak

/-! ## C10: addMonitor (src/client.ts) -/

/-- The acknowledgment of the `add` event:
`{ ok: boolean, msg?: string, monitorID?: number }`. -/
structure AddAck where
  ok : Bool
  msg : Option String
  monitorID : Option Int

/-- `UptimeKumaClient.addMonitor` (src/client.ts): emit `add` with the
projected payload; the acknowledgment resolves `{ ...monitor, id:
response.monitorID }` — the caller's original, unprojected input spread
with the assigned identifier — and rejects when `ok` is falsy or
`monitorID` is falsy (absent or zero). The first component of the result
is the payload that was transmitted; `none` models the projection throw. -/
def addMonitor (ack : JSObject → AddAck) (monitor : JSObject) :
    Option (JSObject × Except String JSObject) :=
  match transformMonitorPayload monitor with
  | none => none
  | some payload =>
    let r := ack payload
    some (payload,
      match r.ok, r.monitorID with
      | true, some n =>
        if n = 0 then .error ("Failed to add monitor: " ++ r.msg.getD "Unknown error")
        else .ok (jsSpread monitor [("id", .num n)])
      | _, _ => .error ("Failed to add monitor: " ++ r.msg.getD "Unknown error"))

/-- Claim C10: On a successful create, `addMonitor` resolves with the
caller's original, unprojected input spread with the remote-assigned
identifier — not the filtered payload that was transmitted and not a
re-fetched record — so every non-`id` attribute of the returned record
(including those the projection dropped from the transmitted payload)
reads back exactly as in the input; and an ok acknowledgment whose
`monitorID` is absent or zero is rejected as a failure. -/
theorem addMonitor_resolution (ack : JSObject → AddAck) (monitor payload : JSObject)
    (htr : transformMonitorPayload monitor = some payload) :
    (∀ n m, ack payload = ⟨true, m, some n⟩ → n ≠ 0 →
      addMonitor ack monitor = some (payload, .ok (jsSpread monitor [("id", .num n)]))
      ∧ (∀ k, k ≠ "id" → jsGet (jsSpread monitor [("id", .num n)]) k = jsGet monitor k)
      ∧ jsGet (jsSpread monitor [("id", .num n)]) "id" = .num n)
    ∧ (∀ m, ack payload = ⟨true, m, none⟩ →
      addMonitor ack monitor =
        some (payload, .error ("Failed to add monitor: " ++ m.getD "Unknown error")))
    ∧ (∀ m, ack payload = ⟨true, m, some 0⟩ →
      addMonitor ack monitor =
        some (payload, .error ("Failed to add monitor: " ++ m.getD "Unknown error")))
    ∧ (∀ m mid, ack payload = ⟨false, m, mid⟩ →
      addMonitor ack monitor =
        some (payload, .error ("Failed to add monitor: " ++ m.getD "Unknown error"))) := by
  refine ⟨?_, ?_, ?_, ?_⟩
  · intro n m hack hn
    refine ⟨?_, ?_, ?_⟩
    · simp only [addMonitor, htr, hack]
      rw [if_neg hn]
    · intro k hk
      rw [jsGet_jsSpread]
      have hbk : hasKey [("id", JSValue.num n)] k = false := by
        rw [hasKey_cons, hasKey_nil, decide_eq_false (fun hc => hk hc.symm), Bool.or_false]
      rw [hbk]
      by_cases hak : hasKey monitor k = true
      · rw [if_pos hak]
        simp
      · simp only [Bool.not_eq_true] at hak
        rw [hak]
        simp only [Bool.false_eq_true, if_false]
        exact (jsGet_eq_undef_of_not_hasKey hbk).trans
          (jsGet_eq_undef_of_not_hasKey hak).symm
    · rw [jsGet_jsSpread]
      have hbk : hasKey [("id", JSValue.num n)] "id" = true := by
        rw [hasKey_cons, decide_eq_true rfl, Bool.true_or]
      rw [hbk]
      by_cases hak : hasKey monitor "id" = true
      · rw [if_pos hak, if_pos rfl]
        rfl
      · simp only [Bool.not_eq_true] at hak
        rw [hak]
        simp only [Bool.false_eq_true, if_false]
        rfl
  · intro m hack
    simp only [addMonitor, htr, hack]
  · intro m hack
    simp only [addMonitor, htr, hack]
    simp
  · intro m mid hack
    simp only [addMonitor, htr, hack]

def c3Env : UpdateEnv where
  fetchBefore := fun i =>
    if i = 7 then .ok [("id", .num 7), ("name", .str "old"), ("type", .str "http"),
      ("url", .str "a")]
    else .error "Failed to get monitor: Unknown error"
  editAck := fun _ => (true, none)
  fetchAfter := fun i =>
    if i = 7 then .ok [("id", .num 7), ("name", .str "new"), ("type", .str "http"),
      ("url", .str "b"), ("active", .bool true)]
    else .error "Failed to get monitor: Unknown error"

def c3Input : JSObject := [("id", .num 7), ("name", .str "new"), ("url", .str "b")]

/-- Witness for C3: a partial update is merged over the fetched record,
submitted, and the operation resolves with the re-fetched record (which
here carries an `active` field the merged payload never had). -/
theorem updateMonitorById_read_modify_write_witness :
    updateMonitorById c3Env c3Input =
      some ⟨some [("id", .num 7), ("name", .str "new"), ("type", .str "http"),
          ("url", .str "b")],
        .ok [("id", .num 7), ("name", .str "new"), ("type", .str "http"),
          ("url", .str "b"), ("active", .bool true)]⟩ := by
  have h := ((updateMonitorById_read_modify_write c3Env c3Input
    [("id", .num 7), ("name", .str "old"), ("type", .str "http"), ("url", .str "a")]
    c3Input 7 rfl rfl rfl).1 none rfl).1
    [("id", .num 7), ("name", .str "new"), ("type", .str "http"),
      ("url", .str "b"), ("active", .bool true)] rfl
  exact h.trans (by rfl)

def c10Monitor : JSObject :=
  [("name", .str "s"), ("type", .str "http"), ("url", .str "u"), ("hostname", .str "z")]

def c10Payload : JSObject :=
  [("name", .str "s"), ("type", .str "http"), ("url", .str "u"),
   ("notificationIDList", .obj []),
   ("accepted_statuscodes", .arr [.str "200-299"]),
   ("conditions", .arr [])]

/-- Witness for C10: the resolved record is the original input (including
`hostname`, which the `http` projection dropped from the transmitted
payload) plus the assigned `id`; the transmitted payload is the projected
one. -/
theorem addMonitor_resolution_witness :
    addMonitor (fun _ => ⟨true, none, some 9⟩) c10Monitor =
      some (c10Payload,
        .ok [("name", .str "s"), ("type", .str "http"), ("url", .str "u"),
          ("hostname", .str "z"), ("id", .num 9)]) := by
  have h := ((addMonitor_resolution (fun _ => ⟨true, none, some 9⟩) c10Monitor
    c10Payload rfl).1 9 none rfl (by decide)).1
  exact h.trans (by rfl)

/-! ## C4, C5: listMonitors (src/client.ts) -/

/-- The `setTimeout` delay in `listMonitors`: ten seconds. -/
def listTimeoutMs : Nat := 10000

/-- One occurrence a pending `listMonitors` call can react to: the
`getMonitorList` acknowledgment (ok, or not-ok with an optional message),
a `monitorList` push event carrying the id-to-record mapping (embedded as
its entries in enumeration order), or the firing of the timeout timer. -/
inductive ListEvent where
  | ackOk
  | ackFail (msg : Option String)
  | push (data : List (String × JSObject))
  | timeout

/-- The state of one `listMonitors` call: whether `handleMonitorList` is
still registered on the socket, how the promise has settled (if it has),
and how many `off` calls actually removed the listener. -/
structure ListState where
  registered : Bool
  settled : Option (Except String (List JSObject))
  removals : Nat

/-- `socket.off('monitorList', handleMonitorList)`: removes the listener
when it is registered; a no-op otherwise. -/
def offListener (st : ListState) : ListState :=
  if st.registered then { st with registered := false, removals := st.removals + 1 }
  else st

/-- Settling the promise: only the first resolution or rejection counts. -/
def settleWith (st : ListState) (r : Except String (List JSObject)) : ListState :=
  match st.settled with
  | some _ => st
  | none => { st with settled := some r }

/-- One event processed by the handlers `listMonitors` installed: the push
handler runs only while registered, first deregisters itself, then
resolves with `Object.values(data)`; a not-ok acknowledgment deregisters
and rejects; the timeout callback deregisters and rejects. -/
def listStep (st : ListState) (e : ListEvent) : ListState :=
  match e with
  | .ackOk => st
  | .ackFail msg =>
    settleWith (offListener st)
      (.error ("Failed to request monitors: " ++ msg.getD "Unknown error"))
  | .push data =>
    if st.registered then settleWith (offListener st) (.ok (data.map Prod.snd))
    else st
  | .timeout => settleWith (offListener st) (.error "Timeout waiting for monitor list")

/-- The state right after `listMonitors` registered its listener and
emitted `getMonitorList`. -/
def initListState : ListState := ⟨true, none, 0⟩

/-- Run one `listMonitors` call against a chronological trace of timed
events. -/
def runListMonitors (events : List (Nat × ListEvent)) : ListState :=
  events.foldl (fun st te => listStep st te.2) initListState

/-- The listener/removal invariant: either the listener is still registered
(no removal yet, promise unsettled), or it has been removed exactly once. -/
def listInv (st : ListState) : Prop :=
  (st.registered = true ∧ st.removals = 0 ∧ st.settled = none)
  ∨ (st.registered = false ∧ st.removals = 1)

theorem settleWith_registered (st : ListState) (r : Except String (List JSObject)) :
    (settleWith st r).registered = st.registered := by
  unfold settleWith
  cases st.settled <;> rfl

theorem settleWith_removals (st : ListState) (r : Except String (List JSObject)) :
    (settleWith st r).removals = st.removals := by
  unfold settleWith
  cases st.settled <;> rfl

theorem listStep_inv {st : ListState} (h : listInv st) (e : ListEvent) :
    listInv (listStep st e) := by
  rcases h with ⟨h1, h2, h3⟩ | ⟨h1, h2⟩
  · cases e with
    | ackOk => exact Or.inl ⟨h1, h2, h3⟩
    | ackFail msg =>
      refine Or.inr ?_
      simp [listStep, settleWith_registered, settleWith_removals, offListener, h1, h2]
    | push data =>
      refine Or.inr ?_
      simp [listStep, settleWith_registered, settleWith_removals, offListener, h1, h2]
    | timeout =>
      refine Or.inr ?_
      simp [listStep, settleWith_registered, settleWith_removals, offListener, h1, h2]
  · cases e with
    | ackOk => exact Or.inr ⟨h1, h2⟩
    | ackFail msg =>
      refine Or.inr ?_
      simp [listStep, settleWith_registered, settleWith_removals, offListener, h1, h2]
    | push data =>
      rw [listStep, if_neg (by simp [h1])]
      exact Or.inr ⟨h1, h2⟩
    | timeout =>
      refine Or.inr ?_
      simp [listStep, settleWith_registered, settleWith_removals, offListener, h1, h2]

theorem foldl_listStep_inv (l : List (Nat × ListEvent)) :
    ∀ st : ListState, listInv st →
      listInv (l.foldl (fun st te => listStep st te.2) st) := by
  induction l with
  | nil => exact fun st h => h
  | cons hd tl ih => exact fun st h => ih _ (listStep_inv h hd.2)

theorem listInv_run (events : List (Nat × ListEvent)) : listInv (runListMonitors events) :=
  foldl_listStep_inv events initListState (Or.inl ⟨rfl, rfl, rfl⟩)

theorem listStep_registered_false {st : ListState} (h : st.registered = false)
    (e : ListEvent) : (listStep st e).registered = false := by
  cases e with
  | ackOk => exact h
  | ackFail msg => rw [listStep, settleWith_registered, offListener, if_neg (by simp [h])]; exact h
  | push data => rw [listStep, if_neg (by simp [h])]; exact h
  | timeout => rw [listStep, settleWith_registered, offListener, if_neg (by simp [h])]; exact h

theorem foldl_registered_false (l : List (Nat × ListEvent)) :
    ∀ st : ListState, st.registered = false →
      (l.foldl (fun st te => listStep st te.2) st).registered = false := by
  induction l with
  | nil => exact fun _ h => h
  | cons hd tl ih => exact fun st h => ih _ (listStep_registered_false h hd.2)

theorem listStep_timeout_registered (st : ListState) :
    (listStep st .timeout).registered = false := by
  rw [listStep, settleWith_registered, offListener]
  cases hr : st.registered with
  | true => rw [if_pos (by simp [hr])]
  | false => rw [if_neg (by simp [hr])]; exact hr

/-- Claim C4: In every execution of `listMonitors` (the timeout timer always
fires), the push-event listener ends up deregistered and the deregistration
actually removes it on exactly one of the three exit paths — the later
`off` calls find nothing to remove; moreover at every point of the
execution, once the promise has settled the listener is no longer
registered, so it never outlives the operation. -/
theorem listMonitors_listener_discipline (events : List (Nat × ListEvent))
    (ht : ∃ t, (t, ListEvent.timeout) ∈ events) :
    (runListMonitors events).registered = false
    ∧ (runListMonitors events).removals = 1
    ∧ ∀ pre post, events = pre ++ post →
        (runListMonitors pre).settled.isSome = true →
        (runListMonitors pre).registered = false := by
  obtain ⟨t, htm⟩ := ht
  obtain ⟨l1, l2, rfl⟩ := List.append_of_mem htm
  have hreg : (runListMonitors (l1 ++ (t, ListEvent.timeout) :: l2)).registered = false := by
    unfold runListMonitors
    rw [List.foldl_append, List.foldl_cons]
    exact foldl_registered_false l2 _ (listStep_timeout_registered _)
  refine ⟨hreg, ?_, ?_⟩
  · rcases listInv_run (l1 ++ (t, ListEvent.timeout) :: l2) with ⟨h1, _, _⟩ | ⟨_, h2⟩
    · rw [h1] at hreg
      exact absurd hreg (by simp)
    · exact h2
  · intro pre post _ hsome
    rcases listInv_run pre with ⟨_, _, h3⟩ | ⟨h1, _⟩
    · rw [h3] at hsome
      exact absurd hsome (by simp)
    · exact h1

theorem offListener_settled (st : ListState) : (offListener st).settled = st.settled := by
  unfold offListener
  cases hr : st.registered with
  | true => rw [if_pos (by simp [hr])]
  | false => rw [if_neg (by simp [hr])]

theorem listStep_settled_frozen {st : ListState} {x : Except String (List JSObject)}
    (h : st.settled = some x) (e : ListEvent) : (listStep st e).settled = some x := by
  have hs : ∀ st' : ListState, st'.settled = some x →
      ∀ r, (settleWith st' r).settled = some x := by
    intro st' h' r
    unfold settleWith
    rw [h']
    exact h'
  cases e with
  | ackOk => exact h
  | ackFail msg => exact hs _ (by rw [offListener_settled]; exact h) _
  | push data =>
    rw [listStep]
    cases hr : st.registered with
    | true =>
      rw [if_pos (by simp [hr])]
      exact hs _ (by rw [offListener_settled]; exact h) _
    | false => rw [if_neg (by simp [hr])]; exact h
  | timeout => exact hs _ (by rw [offListener_settled]; exact h) _

theorem foldl_settled_frozen (l : List (Nat × ListEvent)) :
    ∀ (st : ListState) (x : Except String (List JSObject)), st.settled = some x →
      (l.foldl (fun st te => listStep st te.2) st).settled = some x := by
  induction l with
  | nil => exact fun _ _ h => h
  | cons hd tl ih => exact fun st x h => ih _ x (listStep_settled_frozen h hd.2)

theorem foldl_ackOk {l : List (Nat × ListEvent)}
    (h : ∀ te ∈ l, te.2 = ListEvent.ackOk) (st : ListState) :
    l.foldl (fun st te => listStep st te.2) st = st := by
  induction l with
  | nil => rfl
  | cons hd tl ih =>
    rw [List.foldl_cons, h hd (List.mem_cons_self _ _)]
    exact ih (fun te hte => h te (List.mem_cons_of_mem _ hte))

/-- Claim C5: `listMonitors` resolves with the values of the
identifier-to-record mapping carried by the first push event; when the
acknowledgment of `getMonitorList` reports failure it rejects immediately
(already settled at that very event, before any later push could matter);
and when neither of those occurs before the ten-second timer fires, it
rejects with the timeout error rather than hanging. -/
theorem listMonitors_settlement (events : List (Nat × ListEvent)) :
    (∀ pre t d post, events = pre ++ (t, ListEvent.push d) :: post →
      (∀ te ∈ pre, te.2 = ListEvent.ackOk) →
      (runListMonitors events).settled = some (.ok (d.map Prod.snd)))
    ∧ (∀ pre t m post, events = pre ++ (t, ListEvent.ackFail m) :: post →
      (∀ te ∈ pre, te.2 = ListEvent.ackOk) →
      (runListMonitors (pre ++ [(t, ListEvent.ackFail m)])).settled =
        some (.error ("Failed to request monitors: " ++ m.getD "Unknown error"))
      ∧ (runListMonitors events).settled =
        some (.error ("Failed to request monitors: " ++ m.getD "Unknown error")))
    ∧ (∀ pre post, events = pre ++ (listTimeoutMs, ListEvent.timeout) :: post →
      (∀ te ∈ pre, te.2 = ListEvent.ackOk) →
      (runListMonitors events).settled = some (.error "Timeout waiting for monitor list")) := by
  refine ⟨?_, ?_, ?_⟩
  · rintro pre t d post rfl hpre
    unfold runListMonitors
    rw [List.foldl_append, foldl_ackOk hpre, List.foldl_cons]
    exact foldl_settled_frozen post _ _ rfl
  · rintro pre t m post rfl hpre
    constructor
    · unfold runListMonitors
      rw [List.foldl_append, foldl_ackOk hpre, List.foldl_cons]
      rfl
    · unfold runListMonitors
      rw [List.foldl_append, foldl_ackOk hpre, List.foldl_cons]
      exact foldl_settled_frozen post _ _ rfl
  · rintro pre post rfl hpre
    unfold runListMonitors
    rw [List.foldl_append, foldl_ackOk hpre, List.foldl_cons]
    exact foldl_settled_frozen post _ _ rfl

/-- Witness for C4: a trace in which the push arrives at two seconds and
the timer still fires at ten — the listener is removed exactly once. -/
theorem listMonitors_listener_discipline_witness :
    (runListMonitors [(0, .ackOk), (2000, .push [("1", [("id", .num 1)])]),
      (listTimeoutMs, .timeout)]).registered = false
    ∧ (runListMonitors [(0, .ackOk), (2000, .push [("1", [("id", .num 1)])]),
      (listTimeoutMs, .timeout)]).removals = 1 :=
  ⟨(listMonitors_listener_discipline _ ⟨listTimeoutMs, by simp⟩).1,
   (listMonitors_listener_discipline _ ⟨listTimeoutMs, by simp⟩).2.1⟩

/-- Witness for C5: the same trace resolves with the mapping's values, in
enumeration order. -/
theorem listMonitors_settlement_witness :
    (runListMonitors [(0, .ackOk),
      (2000, .push [("1", [("id", .num 1)]), ("2", [("id", .num 2)])]),
      (listTimeoutMs, .timeout)]).settled =
      some (.ok [[("id", .num 1)], [("id", .num 2)]]) := by
  have h := (listMonitors_settlement [(0, .ackOk),
      (2000, .push [("1", [("id", .num 1)]), ("2", [("id", .num 2)])]),
      (listTimeoutMs, .timeout)]).1
    [(0, .ackOk)] 2000 [("1", [("id", .num 1)]), ("2", [("id", .num 2)])]
    [(listTimeoutMs, .timeout)] rfl
    (by
      intro te hte
      simp only [List.mem_singleton] at hte
      rw [hte])
  exact h.trans (by rfl)

/-! ## C9: findMonitorsByName (src/client.ts) -/

/-- A monitor as typed by the client (`Monitor extends MonitorConfig` with
`id`): the interface guarantees `name` is a string; the rest of the record
is carried as the object the fields are read from. -/
structure KMonitor where
  name : String
  record : JSObject

/-- Substring containment on character lists (the JavaScript
`String.prototype.includes`). -/
def includesScan : List Char → List Char → Bool
  | needle, [] => needle.isEmpty
  | needle, c :: rest => needle.isPrefixOf (c :: rest) || includesScan needle rest

/-- `hay.includes(needle)`. -/
def jsIncludes (hay needle : String) : Bool := includesScan needle.toList hay.toList

/-- The reduced summary shape returned for each match: `id`, `name`,
`url`, `description`, `type`, `pathName`, `hostname`, `port`, `active`. -/
def monitorSummary (m : KMonitor) : JSObject :=
  [("id", jsGet m.record "id"), ("name", .str m.name), ("url", jsGet m.record "url"),
   ("description", jsGet m.record "description"), ("type", jsGet m.record "type"),
   ("pathName", jsGet m.record "pathName"), ("hostname", jsGet m.record "hostname"),
   ("port", jsGet m.record "port"), ("active", jsGet m.record "active")]

/-- `UptimeKumaClient.findMonitorsByName` (src/client.ts), over an already
retrieved collection. The JavaScript `RegExp` engine is a platform
builtin, abstracted as a `compile` oracle taking the pattern and the flag
string (`"i"`, case-insensitive, in this code path) and returning either a
matcher on names or the message of the thrown compile error. -/
def findMonitorsByName (compile : String → String → Except String (String → Bool))
    (monitors : List KMonitor) (searchTerm : String) (useRegex : Bool) :
    Except String (List JSObject) :=
  if useRegex then
    match compile searchTerm "i" with
    | .error e => .error ("Invalid regular expression pattern: " ++ e)
    | .ok isMatch => .ok ((monitors.filter (fun m => isMatch m.name)).map monitorSummary)
  else
    .ok ((monitors.filter (fun m =>
      jsIncludes m.name.toLower searchTerm.toLower)).map monitorSummary)

/-- Claim C9: In plain mode a monitor's summary is included exactly when its
lower-cased name contains the lower-cased term (an empty match set is the
empty sequence, not an error); in regex mode the term is compiled with the
case-insensitive flag and a malformed pattern fails the whole operation
with a pattern error, while a compiled matcher selects exactly the
matching monitors; and every included monitor is projected to the summary
shape with exactly the nine summary keys. -/
theorem findMonitorsByName_spec (compile : String → String → Except String (String → Bool))
    (monitors : List KMonitor) (term : String) :
    (∃ rs, findMonitorsByName compile monitors term false = .ok rs
      ∧ (∀ x, x ∈ rs ↔
          ∃ m, m ∈ monitors ∧ jsIncludes m.name.toLower term.toLower = true
            ∧ x = monitorSummary m)
      ∧ ((∀ m ∈ monitors, jsIncludes m.name.toLower term.toLower = false) → rs = []))
    ∧ (∀ e, compile term "i" = .error e →
      findMonitorsByName compile monitors term true =
        .error ("Invalid regular expression pattern: " ++ e))
    ∧ (∀ f, compile term "i" = .ok f →
      ∃ rs, findMonitorsByName compile monitors term true = .ok rs
        ∧ ∀ x, x ∈ rs ↔ ∃ m, m ∈ monitors ∧ f m.name = true ∧ x = monitorSummary m)
    ∧ (∀ m : KMonitor, (monitorSummary m).map Prod.fst =
        ["id", "name", "url", "description", "type", "pathName", "hostname", "port", "active"]) := by
  refine ⟨⟨(monitors.filter (fun m =>
      jsIncludes m.name.toLower term.toLower)).map monitorSummary, by rfl, ?_, ?_⟩,
    ?_, ?_, fun m => rfl⟩
  · intro x
    simp only [List.mem_map, List.mem_filter]
    constructor
    · rintro ⟨m, ⟨hm, hp⟩, he⟩
      exact ⟨m, hm, hp, he.symm⟩
    · rintro ⟨m, hm, hp, he⟩
      exact ⟨m, ⟨hm, hp⟩, he.symm⟩
  · intro hnone
    rw [List.filter_eq_nil_iff.mpr (fun m hm => by simp [hnone m hm]), List.map_nil]
  · intro e he
    unfold findMonitorsByName
    rw [if_pos rfl, he]
  · intro f hf
    refine ⟨_, by unfold findMonitorsByName; rw [if_pos rfl, hf], ?_⟩
    intro x
    simp only [List.mem_map, List.mem_filter]
    constructor
    · rintro ⟨m, ⟨hm, hp⟩, he⟩
      exact ⟨m, hm, hp, he.symm⟩
    · rintro ⟨m, hm, hp, he⟩
      exact ⟨m, ⟨hm, hp⟩, he.symm⟩

/-- Witness for C9: a malformed pattern fails the whole search with a
pattern error. -/
theorem findMonitorsByName_spec_witness :
    findMonitorsByName
        (fun _ _ => .error "Invalid regular expression: missing closing bracket")
        [⟨"My HTTP Monitor", [("id", .num 1)]⟩] "[" true =
      .error ("Invalid regular expression pattern: "
        ++ "Invalid regular expression: missing closing bracket") :=
  (findMonitorsByName_spec
    (fun _ _ => .error "Invalid regular expression: missing closing bracket")
    [⟨"My HTTP Monitor", [("id", .num 1)]⟩] "[").2.1 _ rfl
